import Mathlib

/-!
Shallow embedding of the sandboxed Python execution service in
`src/api/py/exec.py` (module-level resource limits, `execute_python`,
and the HTTP `handler`), together with proofs of the specification
claims about it.

The executed snippet language is a straight-line subset of Python:
one simple statement per source line (assignment, expression statement,
`import`, or a blank line).  Expressions cover literals, list displays of
literals, name references, attribute access, zero/one-argument calls and
binary `+` — enough to express every program the specification and its
examples mention.  Machine-level aspects that a snippet cannot observe
through these constructs are not modelled.
-/

/-- Exception categories that the modelled code can raise.  `TimeoutError`
is the class raised by `timeout_handler`; the remaining categories are the
built-in exception classes the modelled operations raise. -/
inductive ExcKind where
  | nameError
  | importError
  | typeError
  | valueError
  | attributeError
  | timeoutError
  | otherError
  deriving DecidableEq

/-- A raised Python exception: its class together with its message. -/
structure PyExc where
  kind : ExcKind
  msg : String
  deriving DecidableEq

/-- `type(e).__name__` for the modelled exception classes. -/
def excKindName : ExcKind → String
  | .nameError => "NameError"
  | .importError => "ImportError"
  | .typeError => "TypeError"
  | .valueError => "ValueError"
  | .attributeError => "AttributeError"
  | .timeoutError => "TimeoutError"
  | .otherError => "Exception"

/-- The library modules placed in the restricted namespace
(`sympy`, `np`/`numpy`, `math`, `itertools`, `statistics`). -/
inductive ModuleId where
  | sympyM
  | numpyM
  | mathM
  | itertoolsM
  | statisticsM
  deriving DecidableEq

/-- The callables of the fixed builtin allow-list in `safe_globals`
(plus the two library callables the model gives call semantics to:
`np.array` and `Fraction`). -/
inductive BuiltinFn where
  | absF | allF | anyF | boolF | dictF | enumerateF | filterF | floatF
  | intF | lenF | listF | mapF | maxF | minF | powF | rangeF | roundF
  | setF | sortedF | strF | sumF | tupleF | typeF | zipF | printF
  | npArrayF | fractionF
  deriving DecidableEq

/-- Behaviour of an opaque caller-supplied callable passed in through
`inputs` (the `inputs` parameter of `execute_python` is an arbitrary
Python mapping, so its values may be functions). -/
inductive CallBehavior where
  | raises (e : PyExc)
  | retNone
  deriving DecidableEq

/-- Runtime values.  JSON-style data plus the non-JSON objects that the
modelled program manipulates: numpy 1-D integer arrays, Python sets,
modules, builtin functions and opaque caller-supplied callables. -/
inductive Value where
  | none
  | bool (b : Bool)
  | int (n : Int)
  | float (q : Rat)
  | str (s : String)
  | list (xs : List Value)
  | dict (entries : List (String × Value))
  | pyset (xs : List Value)
  | ndarray (xs : List Int)
  | module (m : ModuleId)
  | builtin (b : BuiltinFn)
  | pyCallable (c : CallBehavior)

/-- `v is None`. -/
def isNoneV : Value → Bool
  | .none => true
  | _ => false

/-- Source literals (what a Python literal token can denote). -/
inductive Lit where
  | noneL
  | boolL (b : Bool)
  | intL (n : Int)
  | strL (s : String)
  deriving DecidableEq

/-- The value a literal evaluates to. -/
def litVal : Lit → Value
  | .noneL => .none
  | .boolL b => .bool b
  | .intL n => .int n
  | .strL s => .str s

/-- Expressions of the snippet language. -/
inductive Expr where
  | lit (v : Lit)
  | listL (vs : List Lit)
  | name (x : String)
  | attr (o : Expr) (field : String)
  | call0 (f : Expr)
  | call1 (f : Expr) (a : Expr)
  | add (a b : Expr)

/-- One source line of a snippet: a simple statement or a blank line. -/
inductive Line where
  | assign (x : String) (e : Expr)
  | exprLine (e : Expr)
  | importLine (m : String)
  | blank

/-- A namespace (Python `dict` with string keys), as an association list
in insertion order. -/
def NS : Type := List (String × Value)

/-- Keys of a namespace. -/
def keysNS (g : NS) : List String := g.map Prod.fst

/-- Dictionary lookup. -/
def lookupNS : NS → String → Option Value
  | [], _ => Option.none
  | (k, v) :: rest, x => if k = x then some v else lookupNS rest x

/-- `d[k] = v`: overwrite in place if the key exists, else append
(Python dicts keep the original position of an overwritten key). -/
def setKey : NS → String → Value → NS
  | [], k, v => [(k, v)]
  | (k0, v0) :: rest, k, v =>
      if k0 = k then (k0, v) :: rest else (k0, v0) :: setKey rest k v

/-- `d.update(u)`: apply every binding of `u` in order. -/
def updateNS (g : NS) (u : NS) : NS :=
  u.foldl (fun acc kv => setKey acc kv.1 kv.2) g

/-- `str(v)` for the modelled values (used by `print` and by the
string fallback of result normalization). -/
def pyStr : Value → String
  | .none => "None"
  | .bool true => "True"
  | .bool false => "False"
  | .int n => toString n
  | .float q => toString q
  | .str s => s
  | .list _ => "[...]"
  | .dict _ => "{...}"
  | .pyset _ => "set(...)"
  | .ndarray _ => "array(...)"
  | .module _ => "<module>"
  | .builtin _ => "<built-in function>"
  | .pyCallable _ => "<function>"

/-- The attribute dictionary of each allow-listed module.  Only the
member the specification exercises (`np.array`) is given call
semantics; the other modules are opaque here because no claim
depends on their members. -/
def moduleDict : ModuleId → NS
  | .numpyM => [("array", .builtin .npArrayF)]
  | .sympyM => []
  | .mathM => []
  | .itertoolsM => []
  | .statisticsM => []

/-- The restricted `__builtins__` table of `safe_globals`
(lines 32-39 of `exec.py`). -/
def safeBuiltins : NS :=
  [("abs", .builtin .absF), ("all", .builtin .allF), ("any", .builtin .anyF),
   ("bool", .builtin .boolF), ("dict", .builtin .dictF),
   ("enumerate", .builtin .enumerateF), ("filter", .builtin .filterF),
   ("float", .builtin .floatF), ("int", .builtin .intF),
   ("len", .builtin .lenF), ("list", .builtin .listF),
   ("map", .builtin .mapF), ("max", .builtin .maxF), ("min", .builtin .minF),
   ("pow", .builtin .powF), ("range", .builtin .rangeF),
   ("round", .builtin .roundF), ("set", .builtin .setF),
   ("sorted", .builtin .sortedF), ("str", .builtin .strF),
   ("sum", .builtin .sumF), ("tuple", .builtin .tupleF),
   ("type", .builtin .typeF), ("zip", .builtin .zipF),
   ("print", .builtin .printF)]

/-- The `safe_globals` dictionary before `inputs` are merged
(lines 31-47 of `exec.py`). -/
def baseGlobals : NS :=
  [("__builtins__", .dict safeBuiltins),
   ("sympy", .module .sympyM),
   ("np", .module .numpyM),
   ("numpy", .module .numpyM),
   ("Fraction", .builtin .fractionF),
   ("math", .module .mathM),
   ("itertools", .module .itertoolsM),
   ("statistics", .module .statisticsM)]

/-- Lines 49-51 of `exec.py`: `if inputs: safe_globals.update(inputs)`. -/
def buildSafeGlobals (inputs : NS) : NS :=
  if inputs.isEmpty then baseGlobals else updateNS baseGlobals inputs

/-- The builtins table a frame uses: CPython resolves `__builtins__` from
the globals dictionary when the frame is created.  If the entry is not a
dictionary the modelled frame gets no builtins (a CPython corner case no
claim depends on). -/
def captureBuiltins (g : NS) : NS :=
  match lookupNS g "__builtins__" with
  | some (.dict d) => d
  | _ => []

/-- Execution state while the snippet runs: the globals dictionary and
the two captured output streams. -/
structure ExecSt where
  g : NS
  out : String
  errOut : String

/-- `LOAD_NAME`: the globals dictionary first, then the frame's
builtins table. -/
def resolveName (g bs : NS) (x : String) : Option Value :=
  match lookupNS g x with
  | some v => some v
  | Option.none => lookupNS bs x

/-- `getattr`.  Modules expose their attribute dictionary; no other
modelled value has an attribute a snippet could use. -/
def getAttr (v : Value) (f : String) : Except PyExc Value :=
  match v with
  | .module m =>
      match lookupNS (moduleDict m) f with
      | some w => .ok w
      | Option.none => .error ⟨.attributeError, "module has no attribute " ++ f⟩
  | _ => .error ⟨.attributeError, "object has no attribute " ++ f⟩

/-- Reads a list value whose elements are all ints (the only `np.array`
argument shape the model needs). -/
def allInts : List Value → Option (List Int)
  | [] => some []
  | .int n :: rest => (allInts rest).map (n :: ·)
  | _ => Option.none

/-- `float(v)`.  In the model every value whose class has `__float__`
converts successfully; the definition still reports a `TypeError`
for the rest, mirroring `float`. -/
def tryFloat : Value → Except PyExc Rat
  | .int n => .ok (n : Rat)
  | .float q => .ok q
  | .bool b => .ok (if b then 1 else 0)
  | _ => .error ⟨.typeError, "argument must support float conversion"⟩

/-- Call semantics of the builtins a claim exercises (`print`,
`np.array`, `float`, `set`).  The remaining allow-listed builtins are
reachable values but no specification claim depends on what they
compute, so applying them is modelled as an opaque error. -/
def builtinSem (b : BuiltinFn) (args : List Value) (st : ExecSt) :
    Except PyExc (Value × ExecSt) :=
  match b, args with
  | .printF, args =>
      .ok (.none, { st with out := st.out ++ String.intercalate " " (args.map pyStr) ++ "\n" })
  | .npArrayF, [.list vs] =>
      match allInts vs with
      | some ns => .ok (.ndarray ns, st)
      | Option.none => .error ⟨.typeError, "unsupported np.array argument"⟩
  | .floatF, [v] =>
      match tryFloat v with
      | .ok q => .ok (.float q, st)
      | .error e => .error e
  | .setF, [] => .ok (.pyset [], st)
  | _, _ => .error ⟨.otherError, "call semantics of this builtin are not modelled"⟩

/-- Calling a value. -/
def applyVal (v : Value) (args : List Value) (st : ExecSt) :
    Except PyExc (Value × ExecSt) :=
  match v with
  | .builtin b => builtinSem b args st
  | .pyCallable (.raises e) => .error e
  | .pyCallable .retNone => .ok (.none, st)
  | _ => .error ⟨.typeError, "object is not callable"⟩

/-- `+` on values: the cases a snippet of the modelled language can
produce. -/
def addVal (a b : Value) : Except PyExc Value :=
  match a, b with
  | .int m, .int n => .ok (.int (m + n))
  | .int m, .float q => .ok (.float (m + q))
  | .float q, .int n => .ok (.float (q + n))
  | .float p, .float q => .ok (.float (p + q))
  | .str s, .str t => .ok (.str (s ++ t))
  | .list xs, .list ys => .ok (.list (xs ++ ys))
  | _, _ => .error ⟨.typeError, "unsupported operand types for +"⟩

/-- Expression evaluation against the globals `st.g` and the frame's
builtins table `bs`; evaluation order is Python's left-to-right. -/
def evalExpr (bs : NS) : Expr → ExecSt → Except PyExc (Value × ExecSt)
  | .lit v, st => .ok (litVal v, st)
  | .listL vs, st => .ok (.list (vs.map litVal), st)
  | .name x, st =>
      match resolveName st.g bs x with
      | some v => .ok (v, st)
      | Option.none => .error ⟨.nameError, "name " ++ x ++ " is not defined"⟩
  | .attr o f, st =>
      match evalExpr bs o st with
      | .error e => .error e
      | .ok (v, st1) =>
          match getAttr v f with
          | .ok w => .ok (w, st1)
          | .error e => .error e
  | .call0 f, st =>
      match evalExpr bs f st with
      | .error e => .error e
      | .ok (v, st1) => applyVal v [] st1
  | .call1 f a, st =>
      match evalExpr bs f st with
      | .error e => .error e
      | .ok (v, st1) =>
          match evalExpr bs a st1 with
          | .error e => .error e
          | .ok (w, st2) => applyVal v [w] st2
  | .add a b, st =>
      match evalExpr bs a st with
      | .error e => .error e
      | .ok (va, st1) =>
          match evalExpr bs b st1 with
          | .error e => .error e
          | .ok (vb, st2) =>
              match addVal va vb with
              | .ok v => .ok (v, st2)
              | .error e => .error e

/-- Executing one line.  An `import` statement resolves `__import__`
from the frame's builtins table only (CPython's `IMPORT_NAME`); with the
restricted table the name is absent and the statement raises
`ImportError: __import__ not found`. -/
def execLine (bs : NS) (l : Line) (st : ExecSt) : Except PyExc ExecSt :=
  match l with
  | .blank => .ok st
  | .assign x e =>
      match evalExpr bs e st with
      | .error ex => .error ex
      | .ok (v, st1) => .ok { st1 with g := setKey st1.g x v }
  | .exprLine e =>
      match evalExpr bs e st with
      | .error ex => .error ex
      | .ok (_, st1) => .ok st1
  | .importLine m =>
      match lookupNS bs "__import__" with
      | Option.none => .error ⟨.importError, "__import__ not found"⟩
      | some imp =>
          match applyVal imp [.str m] st with
          | .error ex => .error ex
          | .ok (v, st1) => .ok { st1 with g := setKey st1.g m v }

/-- Executing the lines of a snippet in order. -/
def execLines (bs : NS) : List Line → ExecSt → Except PyExc ExecSt
  | [], st => .ok st
  | l :: ls, st =>
      match execLine bs l st with
      | .error e => .error e
      | .ok st1 => execLines bs ls st1

/-- Line 60 of `exec.py`: `exec(code, exec_globals)` with the builtins
table captured from the globals at frame creation. -/
def execCode (code : List Line) (g : NS) : Except PyExc ExecSt :=
  execLines (captureBuiltins g) code { g := g, out := "", errOut := "" }

/-- Lines 63-67 of `exec.py`: scan `result`, `answer`, `output`,
`final` in that order; take the value of the first key that is present
(whatever it is), starting from `result = None`. -/
def firstBoundResult (g : NS) : Value :=
  match lookupNS g "result" with
  | some v => v
  | Option.none =>
      match lookupNS g "answer" with
      | some v => v
      | Option.none =>
          match lookupNS g "output" with
          | some v => v
          | Option.none =>
              match lookupNS g "final" with
              | some v => v
              | Option.none => .none

/-- Source text of a literal. -/
def litText : Lit → String
  | .noneL => "None"
  | .boolL true => "True"
  | .boolL false => "False"
  | .intL n => toString n
  | .strL s => "\"" ++ s ++ "\""

/-- Source text of an expression (the concrete syntax the snippet's
line was parsed from). -/
def exprText : Expr → String
  | .lit v => litText v
  | .listL vs =>
      "[" ++ String.intercalate ", " (vs.map litText) ++ "]"
  | .name x => x
  | .attr o f => exprText o ++ "." ++ f
  | .call0 f => exprText f ++ "()"
  | .call1 f a => exprText f ++ "(" ++ exprText a ++ ")"
  | .add a b => exprText a ++ " + " ++ exprText b

/-- Source text of one line. -/
def lineText : Line → String
  | .assign x e => x ++ " = " ++ exprText e
  | .exprLine e => exprText e
  | .importLine m => "import " ++ m
  | .blank => ""

/-- The statement keywords of line 74 of `exec.py`. -/
def stmtKeywords : List String :=
  ["print", "import", "from", "def", "class", "if", "for", "while", "try", "with"]

/-- `s.startswith(pre)` (computed on the character lists so that
concrete instances evaluate definitionally). -/
def strStarts (s pre : String) : Bool :=
  pre.data.isPrefixOf s.data

/-- `last_line.startswith(('print', 'import', ...))`. -/
def startsKw (s : String) : Bool :=
  stmtKeywords.any (fun k => strStarts s k)

/-- Is the line blank (whitespace only)? -/
def isBlankLine : Line → Bool
  | .blank => true
  | _ => false

/-- `code.strip().split('\n')[-1]`: stripping the snippet removes
trailing blank lines, so the last line of the stripped text is the last
non-blank source line. -/
def lastNonBlank (code : List Line) : Option Line :=
  code.reverse.find? (fun l => !isBlankLine l)

/-- `eval(last_line, exec_globals)` parses the text of the line as an
expression: only an expression-statement line parses, while assignment
and `import` lines raise `SyntaxError`, swallowed by the bare `except`. -/
def parseAsExpr : Line → Option Expr
  | .exprLine e => some e
  | _ => Option.none

/-- Lines 70-78 of `exec.py`: the trailing-expression fallback.  The
builtins table is captured afresh from the post-execution globals
(`eval` creates a new frame).  Any error leaves the result as `None`. -/
def runFallback (code : List Line) (st : ExecSt) : Value × ExecSt :=
  match lastNonBlank code with
  | Option.none => (.none, st)
  | some l =>
      let t := lineText l
      if t ≠ "" && !startsKw t then
        match parseAsExpr l with
        | Option.none => (.none, st)
        | some e =>
            match evalExpr (captureBuiltins st.g) e st with
            | .ok (v, st1) => (v, st1)
            | .error _ => (.none, st)
      else (.none, st)

/-- Lines 62-78 of `exec.py`: result extraction.  The code tests
`result is None` after the scan, so a scan that found a name bound to
`None` still runs the fallback. -/
def extractResult (code : List Line) (st : ExecSt) : Value × ExecSt :=
  let r0 := firstBoundResult st.g
  if isNoneV r0 then runFallback code st else (r0, st)

/-- `hasattr(result, 'item')`: every numpy array has an `item` method
(not only zero-dimensional ones). -/
def hasItemAttr : Value → Bool
  | .ndarray _ => true
  | _ => false

/-- `result.item()`: succeeds only for arrays of size 1. -/
def itemCall : Value → Except PyExc Value
  | .ndarray [x] => .ok (.int x)
  | .ndarray _ =>
      .error ⟨.valueError, "can only convert an array of size 1 to a Python scalar"⟩
  | v => .ok v

/-- `isinstance(result, np.ndarray)`. -/
def isNdarrayV : Value → Bool
  | .ndarray _ => true
  | _ => false

/-- `result.tolist()` for a 1-D integer array. -/
def ndarrayToList : Value → Value
  | .ndarray xs => .list (xs.map Value.int)
  | v => v

/-- `hasattr(result, '__float__')`: ints, floats and bools define
`__float__`; the other modelled values do not. -/
def hasFloatAttr : Value → Bool
  | .int _ => true
  | .float _ => true
  | .bool _ => true
  | _ => false

/-- Lines 83-92 of `exec.py`: result normalization, checks applied in
source order.  `hasattr(result, 'item')` is tested before
`isinstance(result, np.ndarray)`, and `.item()` raises outside any
`try`, so its exception propagates to the generic handler. -/
def normalizeResult (r : Value) : Except PyExc Value :=
  if hasItemAttr r then itemCall r
  else if isNdarrayV r then .ok (ndarrayToList r)
  else if hasFloatAttr r then
    match tryFloat r with
    | .ok q => .ok (.float q)
    | .error _ => .ok (.str (pyStr r))
  else .ok r

/-- The structured outcome dictionaries returned by `execute_python`:
`{'ok': True, 'result': ..., 'stdout': ..., 'stderr': ...}` or
`{'ok': False, 'error': ..., 'traceback': ...?}`. -/
inductive Outcome where
  | success (result : Value) (stdout : String) (stderr : Option String)
  | failure (error : String) (traceback : Option String)

/-- `traceback.format_exc()` for a propagated exception. -/
def tbText (e : PyExc) : String :=
  "Traceback (most recent call last):\n" ++ excKindName e.kind ++ ": " ++ e.msg

/-- Lines 101-111 of `exec.py`: `except TimeoutError` builds the fixed
timeout failure without a traceback; `except Exception` builds
`"<class>: <message>"` plus the traceback text. -/
def mkFailure (e : PyExc) : Outcome :=
  match e.kind with
  | .timeoutError => .failure "Execution timeout (5 seconds)" Option.none
  | _ => .failure (excKindName e.kind ++ ": " ++ e.msg) (some (tbText e))

/-- The protected region of `execute_python` (lines 29-111): namespace
construction, execution with captured streams, result extraction,
normalization and outcome packaging, with every raised exception
converted to a failure outcome. -/
def runBody (code : List Line) (inputs : NS) : Outcome :=
  let g := buildSafeGlobals inputs
  match execCode code g with
  | .error e => mkFailure e
  | .ok st =>
      let (r1, st1) := extractResult code st
      match normalizeResult r1 with
      | .error e => mkFailure e
      | .ok rn =>
          .success rn st1.out (if st1.errOut = "" then Option.none else some st1.errOut)

/-- The process-local alarm state (`signal.alarm`): seconds pending,
`0` when no alarm is armed. -/
structure SigSt where
  alarm : Nat
  deriving DecidableEq

/-- `execute_python(code, inputs)` (lines 22-113).  `mainThread` is the
calling context: `signal.signal` succeeds only on the main thread and
raises `ValueError` elsewhere.  Arming (lines 26-27) happens before the
`try`, so that exception propagates to the caller; on the armed path the
`finally` clears the alarm on every exit. -/
def execute_python (code : List Line) (inputs : NS) (mainThread : Bool)
    (s : SigSt) : Except PyExc Outcome × SigSt :=
  if mainThread then
    let armed : SigSt := { alarm := 5 }
    (Except.ok (runBody code inputs), { armed with alarm := 0 })
  else
    (Except.error ⟨.valueError, "signal only works in main thread of the main interpreter"⟩, s)

/-- JSON documents (what `json.dumps` serializes). -/
inductive Json where
  | null
  | bool (b : Bool)
  | num (q : Rat)
  | str (s : String)
  | arr (xs : List Json)
  | obj (fields : List (String × Json))

/-- `type(v).__name__` (for the `json.dumps` error message). -/
def typeNameV : Value → String
  | .none => "NoneType"
  | .bool _ => "bool"
  | .int _ => "int"
  | .float _ => "float"
  | .str _ => "str"
  | .list _ => "list"
  | .dict _ => "dict"
  | .pyset _ => "set"
  | .ndarray _ => "ndarray"
  | .module _ => "module"
  | .builtin _ => "builtin_function_or_method"
  | .pyCallable _ => "function"

mutual

/-- `json.dumps` on one value: JSON data serializes, any other object
raises `TypeError: Object of type <name> is not JSON serializable`. -/
def jsonOfValue : Value → Except String Json
  | .none => .ok .null
  | .bool b => .ok (.bool b)
  | .int n => .ok (.num (n : Rat))
  | .float q => .ok (.num q)
  | .str s => .ok (.str s)
  | .list xs =>
      match jsonOfList xs with
      | .ok js => .ok (.arr js)
      | .error m => .error m
  | .dict entries =>
      match jsonOfEntries entries with
      | .ok fs => .ok (.obj fs)
      | .error m => .error m
  | v => .error ("Object of type " ++ typeNameV v ++ " is not JSON serializable")

/-- Serializes the elements of a list value. -/
def jsonOfList : List Value → Except String (List Json)
  | [] => .ok []
  | v :: vs =>
      match jsonOfValue v with
      | .error m => .error m
      | .ok j =>
          match jsonOfList vs with
          | .error m => .error m
          | .ok js => .ok (j :: js)

/-- Serializes the entries of a dict value. -/
def jsonOfEntries : List (String × Value) → Except String (List (String × Json))
  | [] => .ok []
  | (k, v) :: rest =>
      match jsonOfValue v with
      | .error m => .error m
      | .ok j =>
          match jsonOfEntries rest with
          | .error m => .error m
          | .ok fs => .ok ((k, j) :: fs)

end

/-- `json.dumps` on the outcome dictionary returned by
`execute_python`. -/
def dumpOutcome : Outcome → Except String Json
  | .success r so se =>
      match jsonOfValue r with
      | .error m => .error m
      | .ok jr =>
          .ok (.obj [("ok", .bool true), ("result", jr), ("stdout", .str so),
                     ("stderr", match se with | some t => .str t | Option.none => .null)])
  | .failure err tb =>
      .ok (.obj ([("ok", .bool false), ("error", .str err)] ++
           match tb with
           | some t => [("traceback", .str t)]
           | Option.none => []))

/-- A parsed request body: the `code` and `inputs` fields (a missing or
empty `code` string is the empty snippet). -/
structure ReqBody where
  code : List Line
  inputs : NS

/-- `handler(event, context)` (lines 115-150 of `exec.py`): HTTP status
code and JSON body.  A missing body is the empty dictionary.  Any
exception inside the handler — one propagated by `execute_python` or a
`TypeError` from `json.dumps` — is caught and turned into a 500
`Handler error` response. -/
def handler (event : Option ReqBody) (mainThread : Bool) (s : SigSt) :
    (Nat × Json) × SigSt :=
  let body := event.getD ⟨[], []⟩
  if body.code.isEmpty then
    ((400, .obj [("ok", .bool false), ("error", .str "No code provided")]), s)
  else
    match execute_python body.code body.inputs mainThread s with
    | (.error e, s1) =>
        ((500, .obj [("ok", .bool false), ("error", .str ("Handler error: " ++ e.msg))]), s1)
    | (.ok oc, s1) =>
        match dumpOutcome oc with
        | .ok j => ((200, j), s1)
        | .error m =>
            ((500, .obj [("ok", .bool false), ("error", .str ("Handler error: " ++ m))]), s1)

/-- The OS resource kinds the model tracks: the two the limiter sets,
and a representative third kind to express that nothing else changes. -/
inductive RKind where
  | rlimitCpu
  | rlimitAs
  | rlimitOtherKind
  deriving DecidableEq

/-- The process's resource ceilings: `(soft, hard)` per kind, `none`
while unset. -/
structure RLimSt where
  limits : RKind → Option (Nat × Nat)

/-- `resource.setrlimit(kind, (soft, hard))`: the OS (the `accepts`
oracle) either applies the ceiling or refuses it, in which case the
`OSError`/`ValueError` propagates. -/
def setrlimitM (accepts : RKind → Nat × Nat → Bool) (k : RKind)
    (p : Nat × Nat) (st : RLimSt) : Except String RLimSt :=
  if accepts k p then
    .ok ⟨fun k1 => if k1 = k then some p else st.limits k1⟩
  else
    .error "setrlimit refused by the operating system"

/-- `256 * 1024 * 1024`. -/
def mib256 : Nat := 256 * 1024 * 1024

/-- Lines 15-17 of `exec.py`, run at module import time before any
request is served: CPU seconds soft=hard=5, then address space
soft=hard=256 MiB.  A refusal propagates out of module initialization
(a fatal startup error). -/
def moduleInitLimits (accepts : RKind → Nat × Nat → Bool) (st : RLimSt) :
    Except String RLimSt :=
  match setrlimitM accepts .rlimitCpu (5, 5) st with
  | .error m => .error m
  | .ok st1 => setrlimitM accepts .rlimitAs (mib256, mib256) st1

/-- The names an expression references. -/
def exprNames : Expr → List String
  | .lit _ => []
  | .listL _ => []
  | .name x => [x]
  | .attr o _ => exprNames o
  | .call0 f => exprNames f
  | .call1 f a => exprNames f ++ exprNames a
  | .add a b => exprNames a ++ exprNames b

/-- The names whose resolution executing a line requires: the names of
its expression, or `__import__` for an `import` statement. -/
def neededNames : Line → List String
  | .assign _ e => exprNames e
  | .exprLine e => exprNames e
  | .importLine _ => ["__import__"]
  | .blank => []

/-- The names a line binds in the globals when it succeeds. -/
def lineBindNames : Line → List String
  | .assign x _ => [x]
  | .importLine m => [m]
  | _ => []

/-- The free referenced names of a snippet: names a line needs that no
earlier line of the snippet binds. -/
def freeNeeded : List Line → List String
  | [] => []
  | l :: ls =>
      neededNames l ++ (freeNeeded ls).filter (fun n => !decide (n ∈ lineBindNames l))

/-- Every identifier the fixed allow-list makes reachable: the keys of
`safe_globals` (module aliases and `__builtins__` itself) together with
the keys of the restricted builtins table. -/
def allowNames : List String := keysNS baseGlobals ++ keysNS safeBuiltins

/-- Every identifier the caller-supplied `inputs` makes reachable: its
own keys, plus — when the caller replaces `__builtins__` with a
dictionary — the keys of that replacement. -/
def suppliedNames (inputs : NS) : List String :=
  keysNS inputs ++
    (match lookupNS inputs "__builtins__" with
     | some (.dict d) => keysNS d
     | _ => [])

theorem lookupNS_eq_none_of_not_mem {g : NS} {x : String} (h : x ∉ keysNS g) :
    lookupNS g x = Option.none := by
  induction g with
  | nil => rfl
  | cons kv rest ih =>
      obtain ⟨k, v⟩ := kv
      simp only [keysNS, List.map_cons, List.mem_cons] at h
      push_neg at h
      have hk : k ≠ x := fun hh => h.1 hh.symm
      simp only [lookupNS, if_neg hk]
      exact ih (by simpa [keysNS] using h.2)

theorem mem_keysNS_of_lookup {g : NS} {x : String} {v : Value}
    (h : lookupNS g x = some v) : x ∈ keysNS g := by
  by_contra hx
  rw [lookupNS_eq_none_of_not_mem hx] at h
  exact Option.noConfusion h

theorem lookup_setKey_self (g : NS) (k : String) (v : Value) :
    lookupNS (setKey g k v) k = some v := by
  induction g with
  | nil => simp [setKey, lookupNS]
  | cons kv rest ih =>
      obtain ⟨k0, v0⟩ := kv
      by_cases hk : k0 = k
      · simp [setKey, hk, lookupNS]
      · simp [setKey, hk, lookupNS, ih]

theorem lookup_setKey_ne (g : NS) (k x : String) (v : Value) (hx : k ≠ x) :
    lookupNS (setKey g k v) x = lookupNS g x := by
  induction g with
  | nil => simp [setKey, lookupNS, hx]
  | cons kv rest ih =>
      obtain ⟨k0, v0⟩ := kv
      by_cases hk : k0 = k
      · subst hk
        simp [setKey, lookupNS, hx]
      · simp [setKey, hk, lookupNS, ih]

theorem mem_keys_setKey {g : NS} {k x : String} {v : Value}
    (h : x ∈ keysNS (setKey g k v)) : x = k ∨ x ∈ keysNS g := by
  induction g with
  | nil =>
      simp [setKey, keysNS] at h
      exact Or.inl h
  | cons kv rest ih =>
      obtain ⟨k0, v0⟩ := kv
      by_cases hk : k0 = k
      · simp only [setKey, if_pos hk, keysNS, List.map_cons, List.mem_cons] at h ⊢
        rcases h with h | h
        · exact Or.inr (Or.inl h)
        · exact Or.inr (Or.inr h)
      · simp only [setKey, if_neg hk, keysNS, List.map_cons, List.mem_cons] at h ⊢
        rcases h with h | h
        · exact Or.inr (Or.inl h)
        · rcases ih h with h' | h'
          · exact Or.inl h'
          · exact Or.inr (Or.inr h')

theorem mem_keys_updateNS {u : NS} :
    ∀ {g : NS} {x : String}, x ∈ keysNS (updateNS g u) →
      x ∈ keysNS g ∨ x ∈ keysNS u := by
  induction u with
  | nil => intro g x h; exact Or.inl h
  | cons kv rest ih =>
      intro g x h
      obtain ⟨k, v⟩ := kv
      have h' := @ih (setKey g k v) x h
      rcases h' with h' | h'
      · rcases mem_keys_setKey h' with h'' | h''
        · exact Or.inr (by simp [keysNS, h''])
        · exact Or.inl h''
      · exact Or.inr (by simp [keysNS] at h' ⊢; exact Or.inr h')

theorem lookup_updateNS_not_mem {u : NS} :
    ∀ {g : NS} {x : String}, x ∉ keysNS u →
      lookupNS (updateNS g u) x = lookupNS g x := by
  induction u with
  | nil => intro g x _; rfl
  | cons kv rest ih =>
      intro g x hx
      obtain ⟨k, v⟩ := kv
      simp only [keysNS, List.map_cons, List.mem_cons] at hx
      push_neg at hx
      have step : updateNS g ((k, v) :: rest) = updateNS (setKey g k v) rest := rfl
      rw [step, ih (by simpa [keysNS] using hx.2),
        lookup_setKey_ne _ _ _ _ (fun h => hx.1 h.symm)]

theorem lookup_updateNS_mem_nodup {u : NS} :
    ∀ {g : NS} {x : String}, (u.map Prod.fst).Nodup → x ∈ keysNS u →
      lookupNS (updateNS g u) x = lookupNS u x := by
  induction u with
  | nil => intro g x _ h; exact absurd h (by simp [keysNS])
  | cons kv rest ih =>
      intro g x hnd hx
      obtain ⟨k, v⟩ := kv
      simp only [List.map_cons, List.nodup_cons] at hnd
      have step : updateNS g ((k, v) :: rest) = updateNS (setKey g k v) rest := rfl
      by_cases hk : k = x
      · subst hk
        have hnotin : k ∉ keysNS rest := by simpa [keysNS] using hnd.1
        rw [step, lookup_updateNS_not_mem hnotin, lookup_setKey_self]
        simp [lookupNS]
      · have hxrest : x ∈ keysNS rest := by
          simp only [keysNS, List.map_cons, List.mem_cons] at hx
          rcases hx with hx | hx
          · exact absurd hx.symm hk
          · simpa [keysNS] using hx
        rw [step, ih hnd.2 hxrest]
        simp [lookupNS, hk]

theorem builtinSem_ok_g {b : BuiltinFn} {args : List Value} {st : ExecSt}
    {w : Value} {st1 : ExecSt} (h : builtinSem b args st = .ok (w, st1)) :
    st1.g = st.g := by
  unfold builtinSem at h
  split at h
  · cases h; rfl
  · split at h
    · cases h; rfl
    · exact Except.noConfusion h
  · split at h
    · cases h; rfl
    · exact Except.noConfusion h
  · cases h; rfl
  · exact Except.noConfusion h

theorem applyVal_ok_g {v : Value} {args : List Value} {st : ExecSt}
    {w : Value} {st1 : ExecSt} (h : applyVal v args st = .ok (w, st1)) :
    st1.g = st.g := by
  unfold applyVal at h
  split at h
  · exact builtinSem_ok_g h
  · exact Except.noConfusion h
  · cases h; rfl
  · exact Except.noConfusion h

theorem evalExpr_ok_g {bs : NS} {e : Expr} :
    ∀ {st : ExecSt} {v : Value} {st1 : ExecSt},
      evalExpr bs e st = .ok (v, st1) → st1.g = st.g := by
  induction e with
  | lit l => intro st v st1 h; cases h; rfl
  | listL vs => intro st v st1 h; cases h; rfl
  | name x =>
      intro st v st1 h
      simp only [evalExpr] at h
      cases hr : resolveName st.g bs x with
      | none => rw [hr] at h; exact Except.noConfusion h
      | some u => rw [hr] at h; cases h; rfl
  | attr o f ih =>
      intro st v st1 h
      simp only [evalExpr] at h
      cases ho : evalExpr bs o st with
      | error e => rw [ho] at h; exact Except.noConfusion h
      | ok p =>
          obtain ⟨vo, sto⟩ := p
          simp only [ho] at h
          cases hg : getAttr vo f with
          | error e => rw [hg] at h; exact Except.noConfusion h
          | ok u => rw [hg] at h; cases h; exact ih ho
  | call0 f ih =>
      intro st v st1 h
      simp only [evalExpr] at h
      cases hf : evalExpr bs f st with
      | error e => rw [hf] at h; exact Except.noConfusion h
      | ok p =>
          obtain ⟨vf, stf⟩ := p
          rw [hf] at h
          rw [applyVal_ok_g h, ih hf]
  | call1 f a ihf iha =>
      intro st v st1 h
      simp only [evalExpr] at h
      cases hf : evalExpr bs f st with
      | error e => rw [hf] at h; exact Except.noConfusion h
      | ok p =>
          obtain ⟨vf, stf⟩ := p
          simp only [hf] at h
          cases ha : evalExpr bs a stf with
          | error e => rw [ha] at h; exact Except.noConfusion h
          | ok q =>
              obtain ⟨va, sta⟩ := q
              simp only [ha] at h
              rw [applyVal_ok_g h, iha ha, ihf hf]
  | add a b iha ihb =>
      intro st v st1 h
      simp only [evalExpr] at h
      cases ha : evalExpr bs a st with
      | error e => rw [ha] at h; exact Except.noConfusion h
      | ok p =>
          obtain ⟨va, sta⟩ := p
          simp only [ha] at h
          cases hb : evalExpr bs b sta with
          | error e => rw [hb] at h; exact Except.noConfusion h
          | ok q =>
              obtain ⟨vb, stb⟩ := q
              simp only [hb] at h
              cases hadd : addVal va vb with
              | error e => rw [hadd] at h; exact Except.noConfusion h
              | ok u => rw [hadd] at h; cases h; rw [ihb hb, iha ha]

theorem evalExpr_ok_names {bs : NS} {e : Expr} :
    ∀ {st : ExecSt} {r : Value × ExecSt}, evalExpr bs e st = .ok r →
      ∀ n ∈ exprNames e, n ∈ keysNS st.g ∨ n ∈ keysNS bs := by
  induction e with
  | lit l => intro st r h n hn; exact absurd hn (by simp [exprNames])
  | listL vs => intro st r h n hn; exact absurd hn (by simp [exprNames])
  | name x =>
      intro st r h n hn
      simp only [exprNames, List.mem_singleton] at hn
      subst hn
      simp only [evalExpr] at h
      cases hr : resolveName st.g bs n with
      | none => rw [hr] at h; exact Except.noConfusion h
      | some u =>
          unfold resolveName at hr
          cases hg : lookupNS st.g n with
          | some w => exact Or.inl (mem_keysNS_of_lookup hg)
          | none =>
              rw [hg] at hr
              exact Or.inr (mem_keysNS_of_lookup hr)
  | attr o f ih =>
      intro st r h n hn
      simp only [evalExpr] at h
      cases ho : evalExpr bs o st with
      | error e => rw [ho] at h; exact Except.noConfusion h
      | ok p => exact ih ho n hn
  | call0 f ih =>
      intro st r h n hn
      simp only [evalExpr] at h
      cases hf : evalExpr bs f st with
      | error e => rw [hf] at h; exact Except.noConfusion h
      | ok p => exact ih hf n hn
  | call1 f a ihf iha =>
      intro st r h n hn
      simp only [evalExpr] at h
      cases hf : evalExpr bs f st with
      | error e => rw [hf] at h; exact Except.noConfusion h
      | ok p =>
          obtain ⟨vf, stf⟩ := p
          simp only [hf] at h
          simp only [exprNames, List.mem_append] at hn
          rcases hn with hn | hn
          · exact ihf hf n hn
          · cases ha : evalExpr bs a stf with
            | error e => rw [ha] at h; exact Except.noConfusion h
            | ok q =>
                have h2 := iha ha n hn
                rw [evalExpr_ok_g hf] at h2
                exact h2
  | add a b iha ihb =>
      intro st r h n hn
      simp only [evalExpr] at h
      cases ha : evalExpr bs a st with
      | error e => rw [ha] at h; exact Except.noConfusion h
      | ok p =>
          obtain ⟨va, sta⟩ := p
          simp only [ha] at h
          simp only [exprNames, List.mem_append] at hn
          rcases hn with hn | hn
          · exact iha ha n hn
          · cases hb : evalExpr bs b sta with
            | error e => rw [hb] at h; exact Except.noConfusion h
            | ok q =>
                have h2 := ihb hb n hn
                rw [evalExpr_ok_g ha] at h2
                exact h2

theorem execLine_ok_needs {bs : NS} {l : Line} {st st1 : ExecSt}
    (h : execLine bs l st = .ok st1) :
    ∀ n ∈ neededNames l, n ∈ keysNS st.g ∨ n ∈ keysNS bs := by
  cases l with
  | blank => intro n hn; exact absurd hn (by simp [neededNames])
  | assign y e =>
      intro n hn
      simp only [execLine] at h
      cases he : evalExpr bs e st with
      | error ex => rw [he] at h; exact Except.noConfusion h
      | ok p => exact evalExpr_ok_names he n hn
  | exprLine e =>
      intro n hn
      simp only [execLine] at h
      cases he : evalExpr bs e st with
      | error ex => rw [he] at h; exact Except.noConfusion h
      | ok p => exact evalExpr_ok_names he n hn
  | importLine m =>
      intro n hn
      simp only [neededNames, List.mem_singleton] at hn
      subst hn
      simp only [execLine] at h
      cases hlk : lookupNS bs "__import__" with
      | none => rw [hlk] at h; exact Except.noConfusion h
      | some imp => exact Or.inr (mem_keysNS_of_lookup hlk)

theorem execLine_ok_keys {bs : NS} {l : Line} {st st1 : ExecSt}
    (h : execLine bs l st = .ok st1) :
    ∀ x, x ∈ keysNS st1.g → x ∈ keysNS st.g ∨ x ∈ lineBindNames l := by
  cases l with
  | blank =>
      simp only [execLine] at h
      cases h
      exact fun x hx => Or.inl hx
  | assign y e =>
      simp only [execLine] at h
      cases he : evalExpr bs e st with
      | error ex => rw [he] at h; exact Except.noConfusion h
      | ok p =>
          obtain ⟨v, stv⟩ := p
          rw [he] at h
          cases h
          intro x hx
          rcases mem_keys_setKey hx with hx | hx
          · exact Or.inr (by simp [lineBindNames, hx])
          · rw [evalExpr_ok_g he] at hx
            exact Or.inl hx
  | exprLine e =>
      simp only [execLine] at h
      cases he : evalExpr bs e st with
      | error ex => rw [he] at h; exact Except.noConfusion h
      | ok p =>
          obtain ⟨v, stv⟩ := p
          rw [he] at h
          cases h
          intro x hx
          rw [evalExpr_ok_g he] at hx
          exact Or.inl hx
  | importLine m =>
      simp only [execLine] at h
      cases hlk : lookupNS bs "__import__" with
      | none => rw [hlk] at h; exact Except.noConfusion h
      | some imp =>
          simp only [hlk] at h
          cases happ : applyVal imp [.str m] st with
          | error ex => rw [happ] at h; exact Except.noConfusion h
          | ok p =>
              obtain ⟨v, stv⟩ := p
              rw [happ] at h
              cases h
              intro x hx
              rcases mem_keys_setKey hx with hx | hx
              · exact Or.inr (by simp [lineBindNames, hx])
              · rw [applyVal_ok_g happ] at hx
                exact Or.inl hx

theorem execLines_ok_freeNeeded {bs : NS} :
    ∀ (code : List Line) {st st1 : ExecSt}, execLines bs code st = .ok st1 →
      ∀ n ∈ freeNeeded code, n ∈ keysNS st.g ∨ n ∈ keysNS bs := by
  intro code
  induction code with
  | nil => intro st st1 _ n hn; exact absurd hn (by simp [freeNeeded])
  | cons l ls ih =>
      intro st st1 h n hn
      simp only [execLines] at h
      cases hl : execLine bs l st with
      | error e => rw [hl] at h; exact Except.noConfusion h
      | ok st2 =>
          rw [hl] at h
          simp only [freeNeeded, List.mem_append] at hn
          rcases hn with hn | hn
          · exact execLine_ok_needs hl n hn
          · rw [List.mem_filter] at hn
            have hnb : n ∉ lineBindNames l := by
              have h2 := hn.2
              simp only [Bool.not_eq_true'] at h2
              exact of_decide_eq_false h2
            rcases ih h n hn.1 with hk | hk
            · rcases execLine_ok_keys hl n hk with hk2 | hk2
              · exact Or.inl hk2
              · exact absurd hk2 hnb
            · exact Or.inr hk

theorem mkFailure_cases (e : PyExc) :
    (e.kind = .timeoutError ∧
      mkFailure e = .failure "Execution timeout (5 seconds)" Option.none) ∨
    (e.kind ≠ .timeoutError ∧
      mkFailure e = .failure (excKindName e.kind ++ ": " ++ e.msg) (some (tbText e))) := by
  obtain ⟨k, m⟩ := e
  cases k with
  | timeoutError => exact Or.inl ⟨rfl, rfl⟩
  | nameError => exact Or.inr ⟨by simp, rfl⟩
  | importError => exact Or.inr ⟨by simp, rfl⟩
  | typeError => exact Or.inr ⟨by simp, rfl⟩
  | valueError => exact Or.inr ⟨by simp, rfl⟩
  | attributeError => exact Or.inr ⟨by simp, rfl⟩
  | otherError => exact Or.inr ⟨by simp, rfl⟩

theorem mem_keys_buildSafeGlobals {inputs : NS} {x : String}
    (h : x ∈ keysNS (buildSafeGlobals inputs)) :
    x ∈ allowNames ∨ x ∈ suppliedNames inputs := by
  unfold buildSafeGlobals at h
  by_cases he : inputs.isEmpty
  · rw [if_pos he] at h
    exact Or.inl (by simp only [allowNames, List.mem_append]; exact Or.inl h)
  · rw [if_neg he] at h
    rcases mem_keys_updateNS h with h1 | h1
    · exact Or.inl (by simp only [allowNames, List.mem_append]; exact Or.inl h1)
    · exact Or.inr (by simp only [suppliedNames, List.mem_append]; exact Or.inl h1)

theorem mem_keys_captureBuiltins {inputs : NS} {x : String}
    (hnd : (inputs.map Prod.fst).Nodup)
    (h : x ∈ keysNS (captureBuiltins (buildSafeGlobals inputs))) :
    x ∈ allowNames ∨ x ∈ suppliedNames inputs := by
  unfold captureBuiltins at h
  by_cases he : inputs.isEmpty
  · have hb : buildSafeGlobals inputs = baseGlobals := by
      simp [buildSafeGlobals, he]
    rw [hb] at h
    have hlk : lookupNS baseGlobals "__builtins__" = some (.dict safeBuiltins) := rfl
    rw [hlk] at h
    exact Or.inl (by simp only [allowNames, List.mem_append]; exact Or.inr h)
  · have hb : buildSafeGlobals inputs = updateNS baseGlobals inputs := by
      simp [buildSafeGlobals, he]
    rw [hb] at h
    by_cases hm : "__builtins__" ∈ keysNS inputs
    · rw [lookup_updateNS_mem_nodup hnd hm] at h
      cases hv : lookupNS inputs "__builtins__" with
      | none => rw [hv] at h; exact absurd h (by simp [keysNS])
      | some v =>
          rw [hv] at h
          cases v with
          | dict d =>
              refine Or.inr ?_
              simp only [suppliedNames, List.mem_append, hv]
              exact Or.inr h
          | none => exact absurd h (by simp [keysNS])
          | bool b => exact absurd h (by simp [keysNS])
          | int n => exact absurd h (by simp [keysNS])
          | float q => exact absurd h (by simp [keysNS])
          | str s => exact absurd h (by simp [keysNS])
          | list xs => exact absurd h (by simp [keysNS])
          | pyset xs => exact absurd h (by simp [keysNS])
          | ndarray xs => exact absurd h (by simp [keysNS])
          | module m => exact absurd h (by simp [keysNS])
          | builtin b => exact absurd h (by simp [keysNS])
          | pyCallable c => exact absurd h (by simp [keysNS])
    · rw [lookup_updateNS_not_mem hm] at h
      have hlk : lookupNS baseGlobals "__builtins__" = some (.dict safeBuiltins) := rfl
      rw [hlk] at h
      exact Or.inl (by simp only [allowNames, List.mem_append]; exact Or.inr h)

theorem execCode_eq_execLines (code : List Line) (g : NS) :
    execCode code g = execLines (captureBuiltins g) code { g := g, out := "", errOut := "" } := rfl

/-- C1 counterexample: the snippet `x = "a" + 1` followed by `open()`
references, free, only the unlisted name `open` — its free referenced
names are exactly `[open]`, outside the allow-list and outside the
empty `inputs` — yet the Failure it yields carries a TypeError raised
by the string-plus-int addition on the first line, not a
name-not-found / import-unavailable error: execution fails before the
unlisted reference is ever resolved, so the claimed error
classification does not hold for every such snippet. -/
theorem spec_c1_counterexample :
    freeNeeded [Line.assign "x" (Expr.add (Expr.lit (Lit.strL "a")) (Expr.lit (Lit.intL 1))),
      Line.exprLine (Expr.call0 (Expr.name "open"))] = ["open"] ∧
    ("open" ∉ allowNames ∧ "open" ∉ suppliedNames []) ∧
    runBody [Line.assign "x" (Expr.add (Expr.lit (Lit.strL "a")) (Expr.lit (Lit.intL 1))),
      Line.exprLine (Expr.call0 (Expr.name "open"))] [] =
      Outcome.failure "TypeError: unsupported operand types for +"
        (some "Traceback (most recent call last):\nTypeError: unsupported operand types for +") ∧
    strStarts "TypeError: unsupported operand types for +" "NameError" = false ∧
    strStarts "TypeError: unsupported operand types for +" "ImportError" = false :=
  ⟨rfl, by decide, rfl, rfl, rfl⟩

/-- C1 (amended): a snippet whose free referenced names — names it
reads without having bound them on an earlier line, including the
`__import__` lookup an `import` statement performs — all lie outside
the fixed allow-list and outside everything the caller-supplied
`inputs` mapping makes reachable, and which makes at least one such
free reference, always yields a Failure outcome packaging the runtime
error its execution raised: it can never run to a Success outcome, so
it never reaches a disallowed primitive.  The packaged error need not
be the name-not-found / import-unavailable error, since an operation
earlier in the snippet may raise some other runtime error before the
first unlisted reference is resolved.  The proof shows a successful
execution resolves every free referenced name from the initial globals
or the frame's builtins table, both of which only contain allow-listed
or caller-supplied names. -/
theorem spec_c1_unlisted_names_fail (code : List Line) (inputs : NS)
    (hnd : (inputs.map Prod.fst).Nodup)
    (h1 : ∀ n ∈ freeNeeded code, n ∉ allowNames ∧ n ∉ suppliedNames inputs)
    (h2 : freeNeeded code ≠ []) :
    ∃ e : PyExc, execCode code (buildSafeGlobals inputs) = .error e ∧
      runBody code inputs = mkFailure e ∧
      ∃ msg tb, runBody code inputs = Outcome.failure msg tb := by
  cases hE : execCode code (buildSafeGlobals inputs) with
  | ok st =>
      exfalso
      obtain ⟨n, hn⟩ : ∃ n, n ∈ freeNeeded code := by
        cases hfc : freeNeeded code with
        | nil => exact absurd hfc h2
        | cons a as => exact ⟨a, by simp⟩
      obtain ⟨hna, hns⟩ := h1 n hn
      have hE2 : execLines (captureBuiltins (buildSafeGlobals inputs)) code
          { g := buildSafeGlobals inputs, out := "", errOut := "" } = .ok st := hE
      rcases execLines_ok_freeNeeded code hE2 n hn with hk | hk
      · rcases mem_keys_buildSafeGlobals hk with hm | hm
        · exact hna hm
        · exact hns hm
      · rcases mem_keys_captureBuiltins hnd hk with hm | hm
        · exact hna hm
        · exact hns hm
  | error e =>
      have hrb : runBody code inputs = mkFailure e := by
        simp only [runBody, hE]
      refine ⟨e, rfl, hrb, ?_⟩
      rcases mkFailure_cases e with ⟨_, hm⟩ | ⟨_, hm⟩
      · exact ⟨"Execution timeout (5 seconds)", Option.none, by rw [hrb, hm]⟩
      · exact ⟨excKindName e.kind ++ ": " ++ e.msg, some (tbText e), by rw [hrb, hm]⟩

/-- C1 witness: the specification's example, `import os` followed by
`os.system("ls")`, has `__import__` as its only free referenced name
and yields the packaged Failure (an ImportError, since there is no
`__import__` in the restricted builtins table). -/
theorem spec_c1_witness :
    ∃ e : PyExc,
      execCode [Line.importLine "os",
        Line.exprLine (Expr.call1 (Expr.attr (Expr.name "os") "system")
          (Expr.lit (Lit.strL "ls")))] (buildSafeGlobals []) = .error e ∧
      runBody [Line.importLine "os",
        Line.exprLine (Expr.call1 (Expr.attr (Expr.name "os") "system")
          (Expr.lit (Lit.strL "ls")))] [] = mkFailure e ∧
      ∃ msg tb, runBody [Line.importLine "os",
        Line.exprLine (Expr.call1 (Expr.attr (Expr.name "os") "system")
          (Expr.lit (Lit.strL "ls")))] [] = Outcome.failure msg tb :=
  spec_c1_unlisted_names_fail _ [] (by simp) (by decide) (by decide)

/-- C2: evaluation of the snippet `result = np.array([1, 2, 3])`.  The
claim says a 1-D numeric array result normalizes to the plain list
`[1, 2, 3]` with a Success outcome; in the code the first normalization
check is `hasattr(result, 'item')`, which is true of every numpy array,
so `result.item()` is called and raises `ValueError` for a size-3
array, and the call returns a Failure.  The `isinstance(result,
np.ndarray)` → `tolist()` branch that would produce `[1, 2, 3]` is
unreachable. -/
theorem spec_c2_array_item_valueerror :
    runBody [Line.assign "result"
      (Expr.call1 (Expr.attr (Expr.name "np") "array")
        (Expr.listL [Lit.intL 1, Lit.intL 2, Lit.intL 3]))] [] =
    Outcome.failure "ValueError: can only convert an array of size 1 to a Python scalar"
      (some "Traceback (most recent call last):\nValueError: can only convert an array of size 1 to a Python scalar") := rfl

/-- C3 counterexample: the snippet `result = None` followed by the bare
expression `5` leaves the name `result` bound (to `None`) in the
post-execution namespace, yet the call's outcome carries `5.0` obtained
from the last-line fallback — the claim's rule "use the value of the
first name that is bound (whatever that value is); only when none of
the four names is bound does it fall back" would require the outcome
to carry the bound value `None`. -/
theorem spec_c3_counterexample :
    (Except.map (fun st => lookupNS st.g "result")
        (execCode [Line.assign "result" (Expr.lit Lit.noneL),
          Line.exprLine (Expr.lit (Lit.intL 5))] (buildSafeGlobals [])) =
      Except.ok (some Value.none)) ∧
    runBody [Line.assign "result" (Expr.lit Lit.noneL),
      Line.exprLine (Expr.lit (Lit.intL 5))] [] =
    Outcome.success (Value.float 5) "" Option.none :=
  ⟨rfl, rfl⟩

/-- C3 (amended): extraction scans `result`, `answer`, `output`,
`final` in priority order and uses the first bound value only when that
value is not `None`; whenever the scan yields `None` — because no name
is bound or because the first bound name holds `None` — the last
non-blank source line is evaluated as an expression unless its text
begins with a statement keyword, and any parse or evaluation error
silently leaves the result absent.  The snippet `x = 1` / `x + 1`
yields Success with result 2 (as the float `2.0`, since normalization
applies `float` to ints). -/
theorem spec_c3_extraction_amended :
    (∀ (code : List Line) (st : ExecSt),
      (isNoneV (firstBoundResult st.g) = false →
        extractResult code st = (firstBoundResult st.g, st)) ∧
      (isNoneV (firstBoundResult st.g) = true →
        extractResult code st = runFallback code st) ∧
      (∀ l, lastNonBlank code = some l → startsKw (lineText l) = true →
        runFallback code st = (Value.none, st)) ∧
      (∀ l e err, lastNonBlank code = some l → startsKw (lineText l) = false →
        lineText l ≠ "" → parseAsExpr l = some e →
        evalExpr (captureBuiltins st.g) e st = .error err →
        runFallback code st = (Value.none, st))) ∧
    runBody [Line.assign "x" (Expr.lit (Lit.intL 1)),
      Line.exprLine (Expr.add (Expr.name "x") (Expr.lit (Lit.intL 1)))] [] =
    Outcome.success (Value.float 2) "" Option.none := by
  refine ⟨?_, rfl⟩
  intro code st
  refine ⟨?_, ?_, ?_, ?_⟩
  · intro h
    simp [extractResult, h]
  · intro h
    simp [extractResult, h]
  · intro l hl hkw
    simp [runFallback, hl, hkw]
  · intro l e err hl hkw hne hp hev
    simp [runFallback, hl, hkw, hne, hp, hev]

/-- C3 witness: with `answer` bound to 7 (a non-`None` value) in the
post-execution globals, extraction returns that value unchanged and
ignores the fallback. -/
theorem spec_c3_witness :
    extractResult [] { g := [("answer", Value.int 7)], out := "", errOut := "" } =
      (Value.int 7, { g := [("answer", Value.int 7)], out := "", errOut := "" }) :=
  (spec_c3_extraction_amended.1 []
    { g := [("answer", Value.int 7)], out := "", errOut := "" }).1 rfl

/-- C4 counterexample: invoked on a context where `signal.signal`
raises (any non-main thread), `execute_python` does not return a
structured outcome — the `ValueError` raised while arming the deadline
(lines 26-27, before the `try`) propagates to the caller. -/
theorem spec_c4_counterexample :
    (execute_python [] [] false ⟨0⟩).1 =
      Except.error ⟨ExcKind.valueError,
        "signal only works in main thread of the main interpreter"⟩ := rfl

/-- C4 (amended): when deadline arming succeeds (the call runs on the
main thread), every exception raised during namespace construction,
snippet execution, result extraction, normalization or packaging is
caught and `execute_python` returns a structured outcome; but an
exception raised by deadline arming itself — which sits before the
`try` block — always propagates to the caller. -/
theorem spec_c4_no_escape_amended :
    (∀ (code : List Line) (inputs : NS) (s : SigSt),
      ∃ o : Outcome, (execute_python code inputs true s).1 = Except.ok o) ∧
    (∀ (code : List Line) (inputs : NS) (s : SigSt),
      ∃ e : PyExc, (execute_python code inputs false s).1 = Except.error e) :=
  ⟨fun code inputs _ => ⟨runBody code inputs, rfl⟩,
   fun _ _ _ => ⟨⟨ExcKind.valueError,
     "signal only works in main thread of the main interpreter"⟩, rfl⟩⟩

/-- C5: evaluation of the handler at the body
`{"code": "result = print", "inputs": {}}`.  The snippet runs to a
Success outcome whose result is the builtin `print` function, a value
normalization leaves as-is; `json.dumps` then raises `TypeError`,
the handler's own `except` catches it, and the response is HTTP 500
with a `Handler error` body — not the HTTP 200 the claim promises for
every non-empty `code`. -/
theorem spec_c5_nonserializable_500 :
    handler (some ⟨[Line.assign "result" (Expr.name "print")], []⟩) true ⟨0⟩ =
    ((500, Json.obj [("ok", Json.bool false),
       ("error", Json.str "Handler error: Object of type builtin_function_or_method is not JSON serializable")]), ⟨0⟩) := rfl

/-- C6: every Failure outcome `execute_python` can package has one of
exactly two shapes: the timeout failure carries the fixed message
`Execution timeout (5 seconds)` and no traceback, and every other
failure carries `"<exception class>: <message>"` together with the full
traceback text. -/
theorem spec_c6_failure_shapes (code : List Line) (inputs : NS)
    (msg : String) (tb : Option String)
    (h : runBody code inputs = .failure msg tb) :
    (msg = "Execution timeout (5 seconds)" ∧ tb = Option.none) ∨
    (∃ e : PyExc, e.kind ≠ .timeoutError ∧
      msg = excKindName e.kind ++ ": " ++ e.msg ∧ tb = some (tbText e)) := by
  unfold runBody at h
  cases hE : execCode code (buildSafeGlobals inputs) with
  | error e =>
      simp only [hE] at h
      rcases mkFailure_cases e with ⟨_, hm⟩ | ⟨hk, hm⟩
      · rw [hm] at h
        injection h with h1 h2
        exact Or.inl ⟨h1.symm, h2.symm⟩
      · rw [hm] at h
        injection h with h1 h2
        exact Or.inr ⟨e, hk, h1.symm, h2.symm⟩
  | ok st =>
      simp only [hE] at h
      rcases hx : extractResult code st with ⟨r1, st1⟩
      rw [hx] at h
      cases hN : normalizeResult r1 with
      | error e =>
          have h1 : mkFailure e = Outcome.failure msg tb := by rw [hN] at h; exact h
          rcases mkFailure_cases e with ⟨_, hm⟩ | ⟨hk, hm⟩
          · rw [hm] at h1
            injection h1 with ha hb
            exact Or.inl ⟨ha.symm, hb.symm⟩
          · rw [hm] at h1
            injection h1 with ha hb
            exact Or.inr ⟨e, hk, ha.symm, hb.symm⟩
      | ok rn =>
          have h1 : Outcome.success rn st1.out
              (if st1.errOut = "" then Option.none else some st1.errOut) =
              Outcome.failure msg tb := by rw [hN] at h; exact h
          exact Outcome.noConfusion h1

/-- C6 witness: the failure produced by the snippet `open` (a
NameError) has the generic shape, with the exception class prefixed to
the message and the traceback present. -/
theorem spec_c6_witness :
    ("NameError: name open is not defined" = "Execution timeout (5 seconds)" ∧
      (some "Traceback (most recent call last):\nNameError: name open is not defined" :
        Option String) = Option.none) ∨
    (∃ e : PyExc, e.kind ≠ .timeoutError ∧
      "NameError: name open is not defined" = excKindName e.kind ++ ": " ++ e.msg ∧
      (some "Traceback (most recent call last):\nNameError: name open is not defined" :
        Option String) = some (tbText e)) :=
  spec_c6_failure_shapes [Line.exprLine (Expr.name "open")] [] _ _ rfl

/-- C7: on every exit path of `execute_python` the alarm armed at call
entry is cancelled before the function returns: after a main-thread
call (the only context that arms the deadline) no alarm is pending,
whatever the snippet, inputs or prior alarm state; and a call on which
arming itself failed leaves the alarm state untouched. -/
theorem spec_c7_alarm_cleared (code : List Line) (inputs : NS) (s : SigSt) :
    ((execute_python code inputs true s).2).alarm = 0 ∧
    (execute_python code inputs false s).2 = s :=
  ⟨rfl, rfl⟩

/-- C8: at module initialization the resource limiter sets exactly two
ceilings — CPU time soft=hard=5 seconds and address space
soft=hard=256 MiB — leaving every other resource kind untouched; and
if the operating system refuses either call, the error propagates as a
fatal startup failure instead of the module loading with weaker
limits. -/
theorem spec_c8_limits (accepts : RKind → Nat × Nat → Bool) (st : RLimSt) :
    ((accepts .rlimitCpu (5, 5) = true ∧ accepts .rlimitAs (mib256, mib256) = true) →
      ∃ st1, moduleInitLimits accepts st = .ok st1 ∧
        st1.limits .rlimitCpu = some (5, 5) ∧
        st1.limits .rlimitAs = some (mib256, mib256) ∧
        ∀ k, k ≠ RKind.rlimitCpu → k ≠ RKind.rlimitAs →
          st1.limits k = st.limits k) ∧
    ((accepts .rlimitCpu (5, 5) = false ∨ accepts .rlimitAs (mib256, mib256) = false) →
      ∃ m, moduleInitLimits accepts st = .error m) := by
  constructor
  · rintro ⟨h1, h2⟩
    refine ⟨⟨fun k1 => if k1 = RKind.rlimitAs then some (mib256, mib256)
        else if k1 = RKind.rlimitCpu then some (5, 5) else st.limits k1⟩,
      ?_, by simp, by simp, ?_⟩
    · simp [moduleInitLimits, setrlimitM, h1, h2]
    · intro k hk1 hk2
      simp [hk1, hk2]
  · intro h
    rcases h with h | h
    · exact ⟨"setrlimit refused by the operating system",
        by simp [moduleInitLimits, setrlimitM, h]⟩
    · by_cases h1 : accepts .rlimitCpu (5, 5) = true
      · exact ⟨"setrlimit refused by the operating system",
          by simp [moduleInitLimits, setrlimitM, h1, h]⟩
      · have h1f : accepts .rlimitCpu (5, 5) = false := by
          revert h1
          cases accepts RKind.rlimitCpu (5, 5) <;> simp
        exact ⟨"setrlimit refused by the operating system",
          by simp [moduleInitLimits, setrlimitM, h1f]⟩

/-- C8 witness: with an operating system that accepts both calls the
limiter installs exactly the two configured ceilings, and with one that
refuses them module initialization fails. -/
theorem spec_c8_witness :
    (∃ st1, moduleInitLimits (fun _ _ => true) ⟨fun _ => Option.none⟩ = .ok st1 ∧
      st1.limits .rlimitCpu = some (5, 5) ∧
      st1.limits .rlimitAs = some (mib256, mib256) ∧
      ∀ k, k ≠ RKind.rlimitCpu → k ≠ RKind.rlimitAs →
        st1.limits k = (⟨fun _ => Option.none⟩ : RLimSt).limits k) ∧
    (∃ m, moduleInitLimits (fun _ _ => false) ⟨fun _ => Option.none⟩ = .error m) :=
  ⟨(spec_c8_limits (fun _ _ => true) ⟨fun _ => Option.none⟩).1 ⟨rfl, rfl⟩,
   (spec_c8_limits (fun _ _ => false) ⟨fun _ => Option.none⟩).2 (Or.inl rfl)⟩

/-- C9: when the caller's `inputs` mapping contains the key
`__builtins__`, the merge `safe_globals.update(inputs)` does not
exclude it: the caller's value replaces the restricted builtins table
in the executed snippet's globals, and the builtins table the
execution frame resolves names against becomes exactly the caller's
dictionary rather than the fixed allow-list. -/
theorem spec_c9_builtins_override (inputs : NS) (d : List (String × Value))
    (hnd : (inputs.map Prod.fst).Nodup)
    (h : lookupNS inputs "__builtins__" = some (Value.dict d)) :
    lookupNS (buildSafeGlobals inputs) "__builtins__" = some (Value.dict d) ∧
    captureBuiltins (buildSafeGlobals inputs) = d := by
  have hne : inputs.isEmpty = false := by
    cases inputs with
    | nil => exact Option.noConfusion h
    | cons kv rest => rfl
  have hmem : "__builtins__" ∈ keysNS inputs := mem_keysNS_of_lookup h
  have hb : buildSafeGlobals inputs = updateNS baseGlobals inputs := by
    simp [buildSafeGlobals, hne]
  have hlk : lookupNS (buildSafeGlobals inputs) "__builtins__" = some (Value.dict d) := by
    rw [hb, lookup_updateNS_mem_nodup hnd hmem, h]
  exact ⟨hlk, by simp [captureBuiltins, hlk]⟩

/-- C9 witness: supplying `inputs = {"__builtins__": {"open": f}}`
makes the frame's builtins table exactly that one-entry dictionary. -/
theorem spec_c9_witness :
    lookupNS (buildSafeGlobals
        [("__builtins__", Value.dict [("open", Value.pyCallable CallBehavior.retNone)])])
      "__builtins__" =
      some (Value.dict [("open", Value.pyCallable CallBehavior.retNone)]) ∧
    captureBuiltins (buildSafeGlobals
        [("__builtins__", Value.dict [("open", Value.pyCallable CallBehavior.retNone)])]) =
      [("open", Value.pyCallable CallBehavior.retNone)] :=
  spec_c9_builtins_override _ _ (by simp) rfl

/-- C10: any `TimeoutError` raised while the snippet itself executes —
not only one raised by the alarm's `timeout_handler` — is caught by the
`except TimeoutError` branch and reported as the timeout failure with
the fixed message and no traceback, indistinguishable from a genuine
deadline expiry. -/
theorem spec_c10_snippet_timeout_conflated (code : List Line) (inputs : NS)
    (e : PyExc) (hE : execCode code (buildSafeGlobals inputs) = .error e)
    (hk : e.kind = .timeoutError) :
    runBody code inputs = .failure "Execution timeout (5 seconds)" Option.none := by
  obtain ⟨k, m⟩ := e
  simp only at hk
  subst hk
  simp only [runBody, hE]
  rfl

/-- C10 witness: a caller-supplied callable that raises a
`TimeoutError` of its own (message `snippet timeout`) produces the
fixed timeout failure without a traceback. -/
theorem spec_c10_witness :
    runBody [Line.exprLine (Expr.call0 (Expr.name "f"))]
      [("f", Value.pyCallable (CallBehavior.raises ⟨ExcKind.timeoutError, "snippet timeout"⟩))] =
    Outcome.failure "Execution timeout (5 seconds)" Option.none :=
  spec_c10_snippet_timeout_conflated _ _
    ⟨ExcKind.timeoutError, "snippet timeout"⟩ rfl rfl
